import Mathlib

/-!
Verification of the MEV bot's sandwich/ranking/dedup core.

The development shallowly embeds the Rust sources: `U256` values become `Nat`
together with explicit saturating or checked (`Option`-valued) operations,
stateful loops become fueled recursive functions, and code paths that abort
the process (arithmetic overflow or `Option::unwrap` on `None`) surface as
`none`.  Floating-point fields (`price_impact : f64`) are reporting-only in
the source and are not carried by the integer model, but the `as_u64` /
`as_u128` casts that feed them abort on out-of-range values and those aborts
are modelled.
-/

/-- Largest value of the 256-bit unsigned integer type (`ethers::types::U256`). -/
def U256MAX : Nat := 2 ^ 256 - 1

/-- `U256::saturating_add`: overflow clamps to the maximum. -/
def satAdd (a b : Nat) : Nat := min (a + b) U256MAX

/-- `U256::saturating_mul`: overflow clamps to the maximum. -/
def satMul (a b : Nat) : Nat := min (a * b) U256MAX

/-- Plain `U256` addition, which aborts the process on overflow. -/
def cadd (a b : Nat) : Option Nat := if a + b ≤ U256MAX then some (a + b) else none

/-- Plain `U256` multiplication, which aborts the process on overflow. -/
def cmul (a b : Nat) : Option Nat := if a * b ≤ U256MAX then some (a * b) else none

/-- Plain `U256` subtraction, which aborts the process on underflow.
(`saturating_sub` is truncated `Nat` subtraction and needs no wrapper.) -/
def csub (a b : Nat) : Option Nat := if b ≤ a then some (a - b) else none

/-- Modelled from the spec: the AMM constant-product kernel
`uni::get_amount_out`.  The module `uni` is declared in `lib.rs` and called
from `strategy/sandwich.rs` and `strategy/arbitrage.rs`, but its source file
is not part of the repository snapshot.  Spec §4.1 defines it as

  `amount_out = (amount_in · (10000 − f_bps) · r_out)
              / (r_in · 10000 + amount_in · (10000 − f_bps))`

in 256-bit unsigned arithmetic with saturating semantics and floor division;
zero reserves or a zero input give a zero output, and the post-swap reserves
`(r_in + amount_in, r_out − amount_out)` are returned for chaining. -/
def get_amount_out (amount_in r_in r_out f_bps : Nat) : Nat × Nat × Nat :=
  if amount_in = 0 ∨ r_in = 0 ∨ r_out = 0 then
    (0, satAdd r_in amount_in, r_out)
  else
    let keep := 10000 - f_bps
    let num := satMul (satMul amount_in keep) r_out
    let den := satAdd (satMul r_in 10000) (satMul amount_in keep)
    let amount_out := num / den
    (amount_out, satAdd r_in amount_in, r_out - amount_out)

/-- Modelled from the spec: the three-argument form used at the call sites
(`uni::get_amount_out(amount, r_in, r_out)`), at the default fee of 30 bps. -/
def get_amount_out30 (amount_in r_in r_out : Nat) : Nat × Nat × Nat :=
  get_amount_out amount_in r_in r_out 30

/-- The integer fields of `OptimalSandwich` (both `strategy/sandwich.rs` and
`strategy/enhanced_sandwich.rs` declare this record with the same fields).
The `price_impact : f64` field is floating point and reporting-only; it is
not carried by the model, but the casts that compute it are (see the
optimizer definitions). -/
structure OptimalSandwich where
  frontrun_amount : Nat
  backrun_amount : Nat
  profit : Nat
  gas_cost : Nat
deriving Repr, DecidableEq

/-- The decoded router call dispatched by `SandwichStrategy::analyze`
(`UniV2RouterCalls` from the consumed router ABI); each payload carries the
fields the analysis reads.  Token addresses are abstracted as `Nat`. -/
inductive UniV2RouterCall where
  | swapExactETHForTokens (path : List Nat) (amount_out_min : Nat)
  | swapExactETHForTokensSupportingFeeOnTransferTokens (path : List Nat) (amount_out_min : Nat)
  | swapExactTokensForETH (path : List Nat) (amount_in : Nat) (amount_out_min : Nat)
  | swapExactTokensForETHSupportingFeeOnTransferTokens (path : List Nat) (amount_in : Nat) (amount_out_min : Nat)
  | swapExactTokensForTokens (path : List Nat) (amount_in : Nat) (amount_out_min : Nat)
  | swapExactTokensForTokensSupportingFeeOnTransferTokens (path : List Nat) (amount_in : Nat) (amount_out_min : Nat)
  | otherSelector
deriving Repr, DecidableEq

/-- The fields of an observed pending transaction (`ethers Transaction`) that
the sandwich analysis reads: native value, optional legacy gas price,
optional recipient, and the decoded calldata (`none` when
`UniV2RouterCalls::decode(&tx.input)` fails). -/
structure PendingTx where
  value : Nat
  gas_price : Option Nat
  /-- The source field is named `to`; that name is reserved in Lean. -/
  toAddr : Option Nat
  input : Option UniV2RouterCall
deriving Repr, DecidableEq

/-- The fields of `MEVOpportunity` (strategy/types.rs) read by the ranking and
emission logic.  The `id` string, the embedded transactions and the
strategy-detail payload do not influence ranking or emission and are omitted. -/
structure MEVOpportunity where
  estimated_profit : Nat
  gas_cost : Nat
  priority : Nat
  expiry_block : Nat
deriving Repr, DecidableEq

namespace SandwichStrategy

/-- `SandwichStrategy::new` (sandwich.rs line 18) sets the minimum profit to
`U256::from(10).pow(17)`, i.e. 0.1 ETH. -/
def min_profit_wei : Nat := 10 ^ 17

/-- `SandwichStrategy::calculate_frontrun_gas_price` (sandwich.rs lines 23-27):
the victim's gas price (20 gwei when absent) plus a 2 gwei premium,
saturating. -/
def calculate_frontrun_gas_price (gas_price : Option Nat) : Nat :=
  let base_price := gas_price.getD 20000000000
  satAdd base_price 2000000000

/-- `SandwichStrategy::calculate_backrun_gas_price` (sandwich.rs lines 29-37):
the victim's gas price minus 2 gwei when it exceeds 2 gwei, otherwise half
of it. -/
def calculate_backrun_gas_price (gas_price : Option Nat) : Nat :=
  let base_price := gas_price.getD 20000000000
  if base_price > 2000000000 then base_price - 2000000000 else base_price / 2

/-- `SandwichStrategy::validate_profitable_victim` (sandwich.rs lines 39-53).
Note: this function is defined in the source but is never called — neither
`analyze` nor any other function invokes it. -/
def validate_profitable_victim (tx : PendingTx) (min_value : Nat) : Bool :=
  if tx.value < min_value then false
  else
    match tx.gas_price with
    | some gas_price =>
      if gas_price > 500000000000 ∨ gas_price = 0 then false else true
    | none => true

/-- `SandwichStrategy::simulate_sandwich_profit` (sandwich.rs lines 232-270):
chain frontrun, victim and backrun hops through the AMM kernel; profit is the
guarded difference `backrun_out - frontrun_amount`, and the gas cost is the
constant `300000 · 50 gwei`. -/
def simulate_sandwich_profit (frontrun_amount victim_amount reserve_in reserve_out : Nat) :
    Nat × Nat :=
  let s1 := get_amount_out30 frontrun_amount reserve_in reserve_out
  let frontrun_out := s1.1
  let s2 := get_amount_out30 victim_amount s1.2.1 s1.2.2
  let s3 := get_amount_out30 frontrun_out s2.2.2 s2.2.1
  let backrun_out := s3.1
  let profit := if backrun_out > frontrun_amount then backrun_out - frontrun_amount else 0
  let gas_cost := 300000 * 50 * 10 ^ 9
  (profit, gas_cost)

/-- The binary-search loop of `SandwichStrategy::calculate_optimal_sandwich`
(sandwich.rs lines 194-221), with explicit fuel.  When `mid = 0` and the
midpoint is not profitable, the source computes `mid - 1` on `U256`, which
underflows and aborts the process: that path is `none`.  Fuel exhaustion is
also `none`, so every `some` result corresponds to a completed execution.
The additions `low + high` and `mid + 1` cannot overflow because both bounds
stay at or below `reserve_in / 10 ≤ U256MAX / 10`. -/
def sandwich_search (victim_amount reserve_in reserve_out : Nat) :
    Nat → Nat → Nat → Nat → Nat → Option (Nat × Nat)
  | 0, _, _, _, _ => none
  | fuel + 1, low, high, best_profit, best_amount =>
    if low ≤ high then
      let mid := (low + high) / 2
      let pg := simulate_sandwich_profit mid victim_amount reserve_in reserve_out
      let best_profit' := if pg.1 > best_profit then pg.1 else best_profit
      let best_amount' := if pg.1 > best_profit then mid else best_amount
      if pg.1 > pg.2 then
        sandwich_search victim_amount reserve_in reserve_out fuel (mid + 1) high
          best_profit' best_amount'
      else if mid = 0 then
        none
      else
        sandwich_search victim_amount reserve_in reserve_out fuel low (mid - 1)
          best_profit' best_amount'
    else
      some (best_profit, best_amount)

/-- `SandwichStrategy::calculate_optimal_sandwich` (sandwich.rs lines 186-230):
binary search over `[0, reserve_in / 10]`.  The result is `none` when the
search aborts, when `best_amount * 95` overflows, or when `best_amount` or
`reserve_in` exceeds `u64::MAX` (the `as_u64` casts feeding the floating
`price_impact` abort there).  The unused `_is_token_to_eth` flag is dropped. -/
def calculate_optimal_sandwich (fuel victim_amount reserve_in reserve_out : Nat) :
    Option OptimalSandwich :=
  match sandwich_search victim_amount reserve_in reserve_out fuel 0 (reserve_in / 10) 0 0 with
  | none => none
  | some (best_profit, best_amount) =>
    match cmul best_amount 95 with
    | none => none
    | some b95 =>
      if best_amount ≤ 2 ^ 64 - 1 ∧ reserve_in ≤ 2 ^ 64 - 1 then
        some {
          frontrun_amount := best_amount
          backrun_amount := b95 / 100
          profit := best_profit
          gas_cost := 500000 * 50 * 10 ^ 9 }
      else none

/-- `SandwichStrategy::calculate_priority` (sandwich.rs lines 321-330). -/
def calculate_priority (s : OptimalSandwich) : Nat :=
  if s.profit > 10 ^ 18 then 10
  else if s.profit > 5 * 10 ^ 17 then 8
  else 5

/-- `SandwichStrategy::analyze_eth_to_token_swap` (sandwich.rs lines 164-173):
the body is `None` ("Simplified for brevity"). -/
def analyze_eth_to_token_swap (_tx : PendingTx) (_path : List Nat)
    (_amount_out_min : Nat) : Option MEVOpportunity :=
  none

/-- `SandwichStrategy::analyze_token_to_token_swap` (sandwich.rs lines
175-184): the body is `None` ("Simplified for brevity"). -/
def analyze_token_to_token_swap (_tx : PendingTx) (_path : List Nat)
    (_amount_in _amount_out_min : Nat) : Option MEVOpportunity :=
  none

/-- `SandwichStrategy::analyze_token_to_eth_swap` (sandwich.rs lines 97-162).
`get_reserves` is a stubbed on-chain query (spec §4.2 makes the pool state an
external snapshot), so the model takes the reserve pair as a parameter, and
likewise the current block height.  `build_frontrun_tx` calls
`victim_tx.to.unwrap()`, which aborts when the victim has no recipient; the
outer `Option` is `none` on any abort.  The inner `Option` is the source's
return value. -/
def analyze_token_to_eth_swap (fuel reserve0 reserve1 : Nat)
    (current_block : Nat) (tx : PendingTx) (path : List Nat)
    (amount_in _amount_out_min : Nat) : Option (Option MEVOpportunity) :=
  if path.length < 2 then some none
  else
    match calculate_optimal_sandwich fuel amount_in reserve0 reserve1 with
    | none => none
    | some optimal_sandwich =>
      if optimal_sandwich.profit < min_profit_wei then some none
      else
        match tx.toAddr with
        | none => none
        | some _ =>
          some (some {
            estimated_profit := optimal_sandwich.profit
            gas_cost := optimal_sandwich.gas_cost
            priority := calculate_priority optimal_sandwich
            expiry_block := current_block + 1 })

/-- `SandwichStrategy::analyze` (sandwich.rs lines 54-95): dispatch on the
decoded router call.  Only the two Token→ETH variants reach
`analyze_token_to_eth_swap`; the ETH→Token and Token→Token handlers return
`None`, and unknown selectors or undecodable calldata fall through to the
empty vector.  The outer `Option` is `none` when the analysis aborts. -/
def analyze (fuel reserve0 reserve1 : Nat) (current_block : Nat)
    (tx : PendingTx) : Option (List MEVOpportunity) :=
  match tx.input with
  | none => some []
  | some call =>
    match call with
    | .swapExactETHForTokens path amount_out_min =>
      match analyze_eth_to_token_swap tx path amount_out_min with
      | some opp => some [opp]
      | none => some []
    | .swapExactETHForTokensSupportingFeeOnTransferTokens path amount_out_min =>
      match analyze_eth_to_token_swap tx path amount_out_min with
      | some opp => some [opp]
      | none => some []
    | .swapExactTokensForETH path amount_in amount_out_min =>
      match analyze_token_to_eth_swap fuel reserve0 reserve1 current_block tx path
          amount_in amount_out_min with
      | none => none
      | some none => some []
      | some (some opp) => some [opp]
    | .swapExactTokensForETHSupportingFeeOnTransferTokens path amount_in amount_out_min =>
      match analyze_token_to_eth_swap fuel reserve0 reserve1 current_block tx path
          amount_in amount_out_min with
      | none => none
      | some none => some []
      | some (some opp) => some [opp]
    | .swapExactTokensForTokens path amount_in amount_out_min =>
      match analyze_token_to_token_swap tx path amount_in amount_out_min with
      | some opp => some [opp]
      | none => some []
    | .swapExactTokensForTokensSupportingFeeOnTransferTokens path amount_in amount_out_min =>
      match analyze_token_to_token_swap tx path amount_in amount_out_min with
      | some opp => some [opp]
      | none => some []
    | .otherSelector => some []

end SandwichStrategy

namespace EnhancedSandwichStrategy

/-- `EnhancedSandwichStrategy::new` (enhanced_sandwich.rs line 18):
`5 · 10^16` wei, i.e. 0.05 ETH. -/
def min_profit_wei : Nat := 5 * 10 ^ 16

/-- `EnhancedSandwichStrategy::new` (enhanced_sandwich.rs line 19): 50 ETH. -/
def max_position_size : Nat := 50 * 10 ^ 18

/-- `EnhancedSandwichStrategy::new` (enhanced_sandwich.rs line 21): 2 gwei. -/
def gas_price_premium : Nat := 2000000000

/-- `EnhancedSandwichStrategy::calculate_safe_gas_prices` (enhanced_sandwich.rs
lines 25-39): returns the `(frontrun, backrun)` gas-price pair derived from
the victim's gas price (20 gwei when absent). -/
def calculate_safe_gas_prices (victim_gas_price : Option Nat) : Nat × Nat :=
  let base_price := victim_gas_price.getD 20000000000
  let frontrun_price := satAdd base_price gas_price_premium
  let backrun_price :=
    if base_price > gas_price_premium then base_price - gas_price_premium
    else base_price / 2
  (frontrun_price, backrun_price)

/-- `EnhancedSandwichStrategy::validate_victim_transaction` (enhanced_sandwich.rs
lines 41-56). -/
def validate_victim_transaction (tx : PendingTx) : Bool :=
  if tx.value < 10 ^ 16 then false
  else
    match tx.gas_price with
    | some gas_price =>
      if gas_price > 500000000000 then false else tx.toAddr.isSome
    | none => tx.toAddr.isSome

/-- `EnhancedSandwichStrategy::calculate_simple_profit` (enhanced_sandwich.rs
lines 123-155).  Plain `U256` arithmetic aborts on overflow (`none`);
`saturating_sub` is truncated `Nat` subtraction. -/
def calculate_simple_profit (x victim_amount r_in r_out : Nat) : Option Nat := do
  let k ← cmul r_in r_out
  let new_r_in ← cadd r_in x
  if new_r_in = 0 then return 0
  let new_r_out := k / new_r_in
  let amount_out := r_out - new_r_out
  let new_r_in_2 ← cadd new_r_in victim_amount
  if new_r_in_2 = 0 then return 0
  let new_r_out_2 := k / new_r_in_2
  let fee_out ← cmul amount_out 997
  let final_r_out ← cadd new_r_out_2 (fee_out / 1000)
  if final_r_out = 0 then return 0
  let final_r_in := k / final_r_out
  let amount_back := new_r_in_2 - final_r_in
  return amount_back - x

/-- `EnhancedSandwichStrategy::calculate_profit_and_derivative`
(enhanced_sandwich.rs lines 105-121): forward finite difference with step
`h = x / 1000 + 1`.  (`x / 1000 + 1` itself cannot overflow since
`x ≤ U256MAX`.) -/
def calculate_profit_and_derivative (x victim_amount r_in r_out : Nat) :
    Option (Nat × Nat) := do
  let profit ← calculate_simple_profit x victim_amount r_in r_out
  let h := x / 1000 + 1
  let xh ← cadd x h
  let profit_plus ← calculate_simple_profit xh victim_amount r_in r_out
  return (profit, (profit_plus - profit) / h)

/-- The ten-iteration Newton loop of
`EnhancedSandwichStrategy::calculate_advanced_sandwich` (enhanced_sandwich.rs
lines 70-90).  Each pass records the best `(profit, x)` seen, then either
breaks (derivative ≤ 1000) or moves `x` by `profit · 10^18 / derivative / 10^18`
(saturating add) and clamps it to `min(max_position_size, reserve_in / 5)`. -/
def newton_search (victim_amount reserve_in reserve_out : Nat) :
    Nat → Nat → Nat → Nat → Option (Nat × Nat)
  | 0, _, best_profit, best_x => some (best_profit, best_x)
  | n + 1, x, best_profit, best_x => do
    let pd ← calculate_profit_and_derivative x victim_amount reserve_in reserve_out
    let best_profit' := if pd.1 > best_profit then pd.1 else best_profit
    let best_x' := if pd.1 > best_profit then x else best_x
    if pd.2 > 1000 then do
      let adjustment ← cmul pd.1 (10 ^ 18)
      let x' := satAdd x (adjustment / pd.2 / 10 ^ 18)
      let x'' := min (min x' max_position_size) (reserve_in / 5)
      newton_search victim_amount reserve_in reserve_out n x'' best_profit' best_x'
    else
      some (best_profit', best_x')

/-- `EnhancedSandwichStrategy::calculate_advanced_sandwich` (enhanced_sandwich.rs
lines 58-103).  `estimate_gas_cost` reads the chain's base fee (default
30 gwei); the model takes that base fee as the parameter `base_fee`, so the
gas cost is `400000 · base_fee` (a plain multiplication, which can abort).
The outer `Option` is `none` on an abort — overflow in plain arithmetic or an
out-of-range `as_u128` cast feeding the floating `price_impact`; the inner
`Option` is the source's return value. -/
def calculate_advanced_sandwich (base_fee victim_amount reserve_in reserve_out : Nat) :
    Option (Option OptimalSandwich) := do
  let r ← newton_search victim_amount reserve_in reserve_out 10 (reserve_in / 20) 0 0
  if r.1 < min_profit_wei then return none
  let b98 ← cmul r.2 98
  let gas_cost ← cmul 400000 base_fee
  if r.2 ≤ 2 ^ 128 - 1 ∧ reserve_in ≤ 2 ^ 128 - 1 then
    return some {
      frontrun_amount := r.2
      backrun_amount := b98 / 100
      profit := r.1
      gas_cost := gas_cost }
  else none

end EnhancedSandwichStrategy

/-- The net-profit key of the ranking comparator in
`analyze_with_all_strategies` (enhanced_mempool.rs lines 105-108):
`estimated_profit.saturating_sub(gas_cost)`. -/
def net_profit (o : MEVOpportunity) : Nat :=
  o.estimated_profit - o.gas_cost

/-- The comparator handed to `sort_by`:
`b.net.cmp(&a.net) ≠ Greater`, i.e. `a` may precede `b` exactly when
`net_profit b ≤ net_profit a`.  There are no further comparison keys. -/
def opportunity_le (a b : MEVOpportunity) : Prop :=
  net_profit b ≤ net_profit a

instance : DecidableRel opportunity_le := fun a b =>
  inferInstanceAs (Decidable (net_profit b ≤ net_profit a))

/-- `all_opportunities.sort_by(...)` (enhanced_mempool.rs lines 105-108).
Rust's `sort_by` is a stable sort; every stable sort computes the same list
from the same comparator, so it is modelled by stable insertion sort. -/
def rank_opportunities (l : List MEVOpportunity) : List MEVOpportunity :=
  l.insertionSort opportunity_le

/-- One step of the dedup check-and-insert in `enhanced_mempool_monitor`
(enhanced_mempool.rs lines 36-40): skip a hash already present, otherwise
insert it.  The `HashMap<TxHash, bool>` keyed by hash is modelled as the list
of its keys in insertion order; no code path ever removes an entry. -/
def dedup_insert (processed : List Nat) (h : Nat) : List Nat :=
  if h ∈ processed then processed else processed ++ [h]

/-- The dedup set after the monitor loop has consumed a stream of tx hashes. -/
def dedup_process (stream : List Nat) : List Nat :=
  stream.foldl dedup_insert []


/-- A victim that every screening rule should reject: value `0` (far below
0.01 ETH) and gas price 600 gwei (above the 500 gwei cap), carrying a valid
Token→ETH swap of `2 · 10^18` along a two-token path. -/
def victim_low_value_tx : PendingTx :=
  { value := 0
    gas_price := some 600000000000
    toAddr := some 1
    input := some (.swapExactTokensForETH [7, 8] (2 * 10 ^ 18) 0) }

/-- A completed bisection-optimizer run: victim swap `2 · 10^18` against the
pool `(10^19, 2 · 10^19)`. -/
def bisection_run : OptimalSandwich :=
  (SandwichStrategy.calculate_optimal_sandwich 100 (2 * 10 ^ 18) (10 ^ 19)
    (2 * 10 ^ 19)).getD ⟨0, 0, 0, 0⟩

/-- A completed bisection-optimizer run whose profit is below 0.1 ETH:
victim swap `3 · 10^17` against the pool `(10^19, 2 · 10^19)`. -/
def bisection_run_small : OptimalSandwich :=
  (SandwichStrategy.calculate_optimal_sandwich 100 (3 * 10 ^ 17) (10 ^ 19)
    (2 * 10 ^ 19)).getD ⟨0, 0, 0, 0⟩

/-- A completed Newton-optimizer run: base fee 30 gwei, victim swap
`2 · 10^18` against the pool `(10^19, 2 · 10^19)`. -/
def newton_run : OptimalSandwich :=
  ((EnhancedSandwichStrategy.calculate_advanced_sandwich 30000000000 (2 * 10 ^ 18)
    (10 ^ 19) (2 * 10 ^ 19)).getD none).getD ⟨0, 0, 0, 0⟩

instance : IsTotal MEVOpportunity opportunity_le :=
  ⟨fun a b => le_total (net_profit b) (net_profit a)⟩

instance : IsTrans MEVOpportunity opportunity_le :=
  ⟨fun _ _ _ h1 h2 => le_trans h2 h1⟩

/-! ## Helper lemmas about the saturating arithmetic -/

theorem satMul_eq_of_le {a b : Nat} (h : a * b ≤ U256MAX) : satMul a b = a * b :=
  min_eq_left h

theorem satAdd_eq_of_le {a b : Nat} (h : a + b ≤ U256MAX) : satAdd a b = a + b :=
  min_eq_left h

theorem satMul_le_mul (a b : Nat) : satMul a b ≤ a * b :=
  min_le_left _ _

theorem satMul_le_max (a b : Nat) : satMul a b ≤ U256MAX :=
  min_le_right _ _

/-- The swap output never exceeds the output-side reserve, saturation or not:
the denominator dominates the `amount_in · (10000 − f)` factor of the
numerator. -/
theorem get_amount_out_fst_le (a r_in r_out f : Nat) :
    (get_amount_out a r_in r_out f).1 ≤ r_out := by
  unfold get_amount_out
  split
  · exact Nat.zero_le _
  · dsimp only
    rcases Nat.eq_zero_or_pos (satMul a (10000 - f)) with h0 | hpos
    · rw [h0]
      simp [satMul]
    · have hden : satMul a (10000 - f) ≤ satAdd (satMul r_in 10000) (satMul a (10000 - f)) :=
        le_min (Nat.le_add_left _ _) (satMul_le_max _ _)
      calc satMul (satMul a (10000 - f)) r_out /
            satAdd (satMul r_in 10000) (satMul a (10000 - f))
          ≤ satMul (satMul a (10000 - f)) r_out / satMul a (10000 - f) :=
            Nat.div_le_div_left hden hpos
        _ ≤ satMul a (10000 - f) * r_out / satMul a (10000 - f) :=
            Nat.div_le_div_right (satMul_le_mul _ _)
        _ = r_out := Nat.mul_div_cancel_left r_out hpos

/-- Constant-product monotonicity when no operation saturates. -/
theorem get_amount_out_product_ge (a r_in r_out f : Nat)
    (h1 : r_in * 10000 + a * (10000 - f) ≤ U256MAX)
    (h2 : a * (10000 - f) * r_out ≤ U256MAX)
    (h3 : r_in + a ≤ U256MAX) :
    r_in * r_out ≤ (get_amount_out a r_in r_out f).2.1 * (get_amount_out a r_in r_out f).2.2 := by
  have ham : a * (10000 - f) ≤ U256MAX := le_trans (Nat.le_add_left _ _) h1
  have hr10 : r_in * 10000 ≤ U256MAX := le_trans (Nat.le_add_right _ _) h1
  unfold get_amount_out
  split
  case isTrue hz =>
    dsimp only
    rw [satAdd_eq_of_le h3]
    exact Nat.mul_le_mul_right _ (Nat.le_add_right _ _)
  case isFalse hnz =>
    have hrin : r_in ≠ 0 := fun h => hnz (Or.inr (Or.inl h))
    dsimp only
    rw [satMul_eq_of_le ham, satMul_eq_of_le hr10, satMul_eq_of_le h2,
      satAdd_eq_of_le h3, satAdd_eq_of_le h1]
    set den := r_in * 10000 + a * (10000 - f) with hden
    set out := a * (10000 - f) * r_out / den with hout
    have hden_pos : 0 < den := by
      have : 0 < r_in * 10000 := Nat.mul_pos (Nat.pos_of_ne_zero hrin) (by norm_num)
      omega
    have hq : out * den ≤ a * (10000 - f) * r_out := Nat.div_mul_le_self _ _
    have key : (r_in + a) * out ≤ a * r_out := by
      rcases Nat.eq_zero_or_pos (10000 - f) with hm0 | hmpos
      · have : out = 0 := by rw [hout, hm0]; simp
        rw [this]
        simp
      · have hden_ge : (r_in + a) * (10000 - f) ≤ den := by
          rw [hden, Nat.add_mul]
          have : r_in * (10000 - f) ≤ r_in * 10000 :=
            Nat.mul_le_mul_left _ (Nat.sub_le _ _)
          omega
        have step : out * ((r_in + a) * (10000 - f)) ≤ a * r_out * (10000 - f) := by
          calc out * ((r_in + a) * (10000 - f)) ≤ out * den :=
                Nat.mul_le_mul_left _ hden_ge
            _ ≤ a * (10000 - f) * r_out := hq
            _ = a * r_out * (10000 - f) := by ring
        have step' : (r_in + a) * out * (10000 - f) ≤ a * r_out * (10000 - f) := by
          calc (r_in + a) * out * (10000 - f) = out * ((r_in + a) * (10000 - f)) := by ring
            _ ≤ a * r_out * (10000 - f) := step
        exact Nat.le_of_mul_le_mul_right step' hmpos
    have expand : (r_in + a) * (r_out - out) = (r_in + a) * r_out - (r_in + a) * out :=
      Nat.mul_sub _ _ _
    rw [expand]
    have hmono : (r_in + a) * r_out - a * r_out ≤ (r_in + a) * r_out - (r_in + a) * out :=
      Nat.sub_le_sub_left key _
    have hcancel : (r_in + a) * r_out - a * r_out = r_in * r_out := by
      rw [Nat.add_mul]
      omega
    omega

/-- C1 (amended): for `r_in, r_out > 0` and `f_bps ≤ 10000`, the AMM kernel's
output never exceeds `r_out`; and whenever no 256-bit operation saturates
(the denominator, the numerator and `r_in + amount_in` all fit in `U256`),
the post-swap reserve product is at least the pre-swap product.  The product
claim fails under saturation (see the counterexample). -/
theorem amm_constant_product_monotone :
    (∀ a r_in r_out f, 0 < r_in → 0 < r_out → f ≤ 10000 →
      (get_amount_out a r_in r_out f).1 ≤ r_out) ∧
    (∀ a r_in r_out f, 0 < r_in → 0 < r_out → f ≤ 10000 →
      r_in * 10000 + a * (10000 - f) ≤ U256MAX →
      a * (10000 - f) * r_out ≤ U256MAX →
      r_in + a ≤ U256MAX →
      r_in * r_out ≤
        (get_amount_out a r_in r_out f).2.1 * (get_amount_out a r_in r_out f).2.2) :=
  ⟨fun a r_in r_out f _ _ _ => get_amount_out_fst_le a r_in r_out f,
   fun a r_in r_out f _ _ _ h1 h2 h3 => get_amount_out_product_ge a r_in r_out f h1 h2 h3⟩

/-- C1 witness: both parts at `amount_in = 500`, reserves `(10^6, 2·10^6)`,
fee 30 bps. -/
theorem amm_constant_product_monotone_witness :
    (get_amount_out 500 1000000 2000000 30).1 ≤ 2000000 ∧
    1000000 * 2000000 ≤
      (get_amount_out 500 1000000 2000000 30).2.1 *
        (get_amount_out 500 1000000 2000000 30).2.2 :=
  ⟨amm_constant_product_monotone.1 500 1000000 2000000 30 (by decide) (by decide) (by decide),
   amm_constant_product_monotone.2 500 1000000 2000000 30 (by decide) (by decide) (by decide)
     (by decide) (by decide) (by decide)⟩

/-- C1 counterexample: with saturating semantics the product claim fails as
stated.  At `amount_in = r_in = U256MAX`, `r_out = 1`, `f_bps = 0` (inputs in
the claim's domain: positive reserves, fee in range) the kernel returns
`amount_out = 1` and post-swap reserves `(U256MAX, 0)`, whose product `0` is
below the pre-swap product `U256MAX · 1`. -/
theorem amm_constant_product_monotone_cex :
    0 < U256MAX ∧ 0 < (1 : Nat) ∧ (0 : Nat) ≤ 10000 ∧
    ¬ (U256MAX * 1 ≤
        (get_amount_out U256MAX U256MAX 1 0).2.1 * (get_amount_out U256MAX U256MAX 1 0).2.2) := by
  refine ⟨by decide, by decide, by decide, ?_⟩
  decide

/-! ## C2: behaviour of the optimizer on zero reserves -/

/-- With a zero output reserve every simulated profit is zero, so the binary
search never takes the `low = mid + 1` branch, the guard `low ≤ high` never
fails (`low` stays `0`), and the run ends in the `mid - 1` underflow abort
(or exhausts any finite fuel). -/
theorem sandwich_search_zero_rout (v r_in : Nat) :
    ∀ fuel high bp ba,
      SandwichStrategy.sandwich_search v r_in 0 fuel 0 high bp ba = none := by
  intro fuel
  induction fuel with
  | zero => intro high bp ba; rfl
  | succ n ih =>
    intro high bp ba
    rw [SandwichStrategy.sandwich_search]
    simp only [Nat.zero_le, if_true, Nat.zero_add]
    have hsim : SandwichStrategy.simulate_sandwich_profit (high / 2) v r_in 0 =
        (0, 300000 * 50 * 10 ^ 9) := by
      unfold SandwichStrategy.simulate_sandwich_profit get_amount_out30 get_amount_out
      simp
    rw [hsim]
    simp only [gt_iff_lt]
    norm_num
    intro _
    exact ih _ _ _

/-- With `reserve_in = 0` the bracket starts as `[0, 0]`, the midpoint `0`
yields zero profit against a positive constant gas cost, and the very first
iteration reaches the `mid - 1` underflow abort. -/
theorem sandwich_search_zero_rin (v r_out fuel bp ba : Nat) :
    SandwichStrategy.sandwich_search v 0 r_out (fuel + 1) 0 0 bp ba = none := by
  rw [SandwichStrategy.sandwich_search]
  have hsim : SandwichStrategy.simulate_sandwich_profit 0 v 0 r_out =
      (0, 300000 * 50 * 10 ^ 9) := by
    unfold SandwichStrategy.simulate_sandwich_profit get_amount_out30 get_amount_out
    simp
  simp [hsim]

/-- C2 (code bug): the claim says a zero reserve makes `calculate_optimal_sandwich`
return normally with zero profit.  In the source it never returns: with
`reserve_in = 0` the first iteration evaluates the unprofitable midpoint `0`
and executes `high = mid - 1`, a `U256` underflow that aborts the process,
and with `reserve_out = 0` every midpoint is unprofitable so the search
either hits the same underflow or spins forever — for every fuel the model
yields `none`, never a zero-profit result. -/
theorem optimal_sandwich_zero_reserves_abort (fuel victim r_in r_out : Nat) :
    SandwichStrategy.calculate_optimal_sandwich fuel victim 0 r_out = none ∧
    SandwichStrategy.calculate_optimal_sandwich fuel victim r_in 0 = none := by
  constructor
  · unfold SandwichStrategy.calculate_optimal_sandwich
    cases fuel with
    | zero => rfl
    | succ n =>
      rw [show (0 : Nat) / 10 = 0 from rfl, sandwich_search_zero_rin]
  · unfold SandwichStrategy.calculate_optimal_sandwich
    rw [sandwich_search_zero_rout]

/-! ## C3: victim screening is dead code -/

set_option maxRecDepth 100000 in
/-- C3 (code bug): the claim says `analyze` emits nothing for victims below
0.01 ETH or with out-of-range gas prices.  `validate_profitable_victim`
would indeed reject this victim, but `analyze` never calls it: against the
pool `(10^19, 2·10^19)` the analysis emits one sandwich opportunity for a
victim of value `0` with a 600 gwei gas price. -/
theorem analyze_emits_despite_screening :
    victim_low_value_tx.value < 10 ^ 16 ∧
    SandwichStrategy.validate_profitable_victim victim_low_value_tx (10 ^ 16) = false ∧
    ((SandwichStrategy.analyze 100 (10 ^ 19) (2 * 10 ^ 19) 0 victim_low_value_tx).getD
        []).length = 1 := by
  refine ⟨by decide, by decide, ?_⟩
  rfl

/-! ## C4: gas-price ordering -/

/-- C4 (amended): for every victim gas price `g` with `0 < g < U256MAX`, the
computed frontrun gas price (`g + 2` gwei, saturating) strictly exceeds `g`
and the computed backrun gas price (`g - 2` gwei when `g` is above 2 gwei,
otherwise `g / 2`) sits strictly below `g`, in both `SandwichStrategy` and
`EnhancedSandwichStrategy`.  At `g = 0` the backrun price equals the victim's
and at `g = U256MAX` the frontrun price does, so the claim's strict ordering
needs exactly these bounds; the `g / 2` fallback also applies at exactly
2 gwei, not only below it. -/
theorem gas_price_strict_ordering (g : Nat) (h0 : 0 < g) (hmax : g < U256MAX) :
    SandwichStrategy.calculate_backrun_gas_price (some g) < g ∧
    g < SandwichStrategy.calculate_frontrun_gas_price (some g) ∧
    (EnhancedSandwichStrategy.calculate_safe_gas_prices (some g)).2 < g ∧
    g < (EnhancedSandwichStrategy.calculate_safe_gas_prices (some g)).1 := by
  have hback : ∀ b : Nat, 0 < b →
      (if b > 2000000000 then b - 2000000000 else b / 2) < b := by
    intro b hb
    split
    · omega
    · exact Nat.div_lt_self hb (by norm_num)
  have hfront : satAdd g 2000000000 > g := by
    unfold satAdd
    rcases le_or_lt (g + 2000000000) U256MAX with h | h
    · rw [min_eq_left h]; omega
    · rw [min_eq_right (le_of_lt h)]; exact hmax
  refine ⟨?_, ?_, ?_, ?_⟩
  · exact hback g h0
  · exact hfront
  · exact hback g h0
  · exact hfront

/-- C4 witness: the strict ordering at a 30 gwei victim gas price. -/
theorem gas_price_strict_ordering_witness :
    SandwichStrategy.calculate_backrun_gas_price (some 30000000000) < 30000000000 ∧
    30000000000 < SandwichStrategy.calculate_frontrun_gas_price (some 30000000000) ∧
    (EnhancedSandwichStrategy.calculate_safe_gas_prices (some 30000000000)).2 < 30000000000 ∧
    30000000000 < (EnhancedSandwichStrategy.calculate_safe_gas_prices (some 30000000000)).1 :=
  gas_price_strict_ordering 30000000000 (by decide) (by decide)

/-- C4 counterexample: at a victim gas price of `0` the backrun gas price is
`0` as well, so it does not sit strictly below the victim's; and at exactly
2 gwei the code halves the price to 1 gwei where the claim's formula
(`victim - 2` gwei unless the victim is below 2 gwei) would give `0`. -/
theorem gas_price_strict_ordering_cex :
    SandwichStrategy.calculate_frontrun_gas_price (some 0) = 2000000000 ∧
    SandwichStrategy.calculate_backrun_gas_price (some 0) = 0 ∧
    ¬ SandwichStrategy.calculate_backrun_gas_price (some 0) < 0 ∧
    SandwichStrategy.calculate_backrun_gas_price (some 2000000000) = 1000000000 := by
  refine ⟨?_, by decide, by decide, by decide⟩
  decide

/-! ## C5: the optimal frontrun size never exceeds a fifth of the pool -/

/-- Invariant of the bisection loop: the best amount only ever takes values of
visited midpoints, and midpoints stay below the (non-increasing) upper
bracket, so a completed search returns an amount at most the initial bound. -/
theorem sandwich_search_amount_le (v r_in r_out : Nat) :
    ∀ fuel low high bp ba p a,
      high ≤ r_in / 10 → ba ≤ r_in / 10 →
      SandwichStrategy.sandwich_search v r_in r_out fuel low high bp ba = some (p, a) →
      a ≤ r_in / 10 := by
  intro fuel
  induction fuel with
  | zero =>
    intro low high bp ba p a _ _ h
    exact absurd h (by simp [SandwichStrategy.sandwich_search])
  | succ n ih =>
    intro low high bp ba p a hhigh hba h
    rw [SandwichStrategy.sandwich_search] at h
    split at h
    case isTrue hlh =>
      dsimp only at h
      have hmid : (low + high) / 2 ≤ high := by omega
      have hba' : (if (SandwichStrategy.simulate_sandwich_profit ((low + high) / 2) v r_in
          r_out).1 > bp then (low + high) / 2 else ba) ≤ r_in / 10 := by
        split
        · exact le_trans hmid hhigh
        · exact hba
      split at h
      · exact ih _ _ _ _ _ _ hhigh hba' h
      · split at h
        · exact absurd h (by simp)
        · exact ih _ _ _ _ _ _ (le_trans (le_trans (Nat.sub_le _ _) hmid) hhigh) hba' h
    case isFalse =>
      have : bp = p ∧ ba = a := by
        have := h
        simp at this
        exact this
      omega

/-- Invariant of the Newton loop: the iterate is clamped to `reserve_in / 5`
before every recursive step, so the best `x` of a completed run stays within
that bound whenever the initial iterate does. -/
theorem newton_search_x_le (v r_in r_out : Nat) :
    ∀ n x bp bx p b,
      x ≤ r_in / 5 → bx ≤ r_in / 5 →
      EnhancedSandwichStrategy.newton_search v r_in r_out n x bp bx = some (p, b) →
      b ≤ r_in / 5 := by
  intro n
  induction n with
  | zero =>
    intro x bp bx p b _ hbx h
    simp [EnhancedSandwichStrategy.newton_search] at h
    omega
  | succ m ih =>
    intro x bp bx p b hx hbx h
    rw [EnhancedSandwichStrategy.newton_search] at h
    cases hpd : EnhancedSandwichStrategy.calculate_profit_and_derivative x v r_in r_out with
    | none =>
      rw [hpd] at h
      exact absurd h (by simp)
    | some pd =>
      rw [hpd] at h
      simp only [Option.bind_eq_bind, Option.some_bind] at h
      have hbx' : (if pd.1 > bp then x else bx) ≤ r_in / 5 := by
        split
        · exact hx
        · exact hbx
      split at h
      · cases hadj : cmul pd.1 (10 ^ 18) with
        | none =>
          rw [hadj] at h
          exact absurd h (by simp)
        | some adjustment =>
          rw [hadj] at h
          simp only [Option.bind_eq_bind, Option.some_bind] at h
          exact ih _ _ _ _ _ (min_le_right _ _) hbx' h
      · have : (if pd.1 > bp then pd.1 else bp) = p ∧ (if pd.1 > bp then x else bx) = b := by
          have := h
          simp at this
          exact this
        omega

/-- C5: neither optimizer ever returns a frontrun amount above
`reserve_in / 5`: the bisection search brackets within `[0, reserve_in / 10]`
and the Newton iterate starts at `reserve_in / 20` and is clamped to
`min(max_position_size, reserve_in / 5)` before every step. -/
theorem optimizer_frontrun_le_fifth :
    (∀ fuel v r_in r_out o,
      SandwichStrategy.calculate_optimal_sandwich fuel v r_in r_out = some o →
      o.frontrun_amount ≤ r_in / 5) ∧
    (∀ base_fee v r_in r_out o,
      EnhancedSandwichStrategy.calculate_advanced_sandwich base_fee v r_in r_out =
        some (some o) →
      o.frontrun_amount ≤ r_in / 5) := by
  constructor
  · intro fuel v r_in r_out o h
    unfold SandwichStrategy.calculate_optimal_sandwich at h
    cases hs : SandwichStrategy.sandwich_search v r_in r_out fuel 0 (r_in / 10) 0 0 with
    | none => rw [hs] at h; exact absurd h (by simp)
    | some pa =>
      obtain ⟨p, a⟩ := pa
      rw [hs] at h
      have ha : a ≤ r_in / 10 :=
        sandwich_search_amount_le v r_in r_out fuel 0 (r_in / 10) 0 0 p a
          le_rfl (Nat.zero_le _) hs
      have ha5 : a ≤ r_in / 5 :=
        le_trans ha (Nat.div_le_div_left (by norm_num) (by norm_num))
      dsimp only at h
      cases hc : cmul a 95 with
      | none => rw [hc] at h; exact absurd h (by simp)
      | some b95 =>
        rw [hc] at h
        dsimp only at h
        split at h
        · injection h with h'
          subst h'
          exact ha5
        · exact absurd h (by simp)
  · intro base_fee v r_in r_out o h
    unfold EnhancedSandwichStrategy.calculate_advanced_sandwich at h
    cases hn : EnhancedSandwichStrategy.newton_search v r_in r_out 10 (r_in / 20) 0 0 with
    | none => rw [hn] at h; exact absurd h (by simp)
    | some r =>
      rw [hn] at h
      simp only [Option.bind_eq_bind, Option.some_bind] at h
      have hb : r.2 ≤ r_in / 5 :=
        newton_search_x_le v r_in r_out 10 (r_in / 20) 0 0 r.1 r.2
          (Nat.div_le_div_left (by norm_num) (by norm_num)) (Nat.zero_le _) (by rw [hn])
      split at h
      · exact absurd h (by simp)
      · cases hc : cmul r.2 98 with
        | none => rw [hc] at h; exact absurd h (by simp)
        | some b98 =>
          rw [hc] at h
          simp only [Option.bind_eq_bind, Option.some_bind] at h
          cases hg : cmul 400000 base_fee with
          | none => rw [hg] at h; exact absurd h (by simp)
          | some gas =>
            rw [hg] at h
            simp only [Option.bind_eq_bind, Option.some_bind] at h
            split at h
            · dsimp only [Option.bind] at h
              injection h with h'
              injection h' with h''
              subst h''
              exact hb
            · exact absurd h (by simp)

set_option maxRecDepth 100000 in
/-- C5 witness: both optimizer bounds at completed concrete runs on the pool
`(10^19, 2 · 10^19)`. -/
theorem optimizer_frontrun_le_fifth_witness :
    bisection_run.frontrun_amount ≤ 10 ^ 19 / 5 ∧
    newton_run.frontrun_amount ≤ 10 ^ 19 / 5 :=
  ⟨optimizer_frontrun_le_fifth.1 100 (2 * 10 ^ 18) (10 ^ 19) (2 * 10 ^ 19)
      bisection_run (by rfl),
   optimizer_frontrun_le_fifth.2 30000000000 (2 * 10 ^ 18) (10 ^ 19) (2 * 10 ^ 19)
      newton_run (by rfl)⟩

/-! ## C6: minimum-profit thresholds -/

/-- C6 (amended): a sandwich whose optimal profit is below the strategy's
minimum-profit threshold is rejected — `analyze_token_to_eth_swap` returns
`None` and `calculate_advanced_sandwich` only ever returns results at or
above its threshold — but the thresholds differ: `SandwichStrategy` defaults
to 0.1 ETH (`10^17` wei) while `EnhancedSandwichStrategy` defaults to
0.05 ETH (`5 · 10^16` wei). -/
theorem min_profit_rejection :
    SandwichStrategy.min_profit_wei = 10 ^ 17 ∧
    EnhancedSandwichStrategy.min_profit_wei = 5 * 10 ^ 16 ∧
    (∀ fuel reserve0 reserve1 current_block tx path amount_in amount_out_min o,
      SandwichStrategy.calculate_optimal_sandwich fuel amount_in reserve0 reserve1 =
        some o →
      o.profit < SandwichStrategy.min_profit_wei →
      SandwichStrategy.analyze_token_to_eth_swap fuel reserve0 reserve1 current_block tx
        path amount_in amount_out_min = some none) ∧
    (∀ base_fee v r_in r_out o,
      EnhancedSandwichStrategy.calculate_advanced_sandwich base_fee v r_in r_out =
        some (some o) →
      EnhancedSandwichStrategy.min_profit_wei ≤ o.profit) := by
  refine ⟨rfl, rfl, ?_, ?_⟩
  · intro fuel reserve0 reserve1 current_block tx path amount_in amount_out_min o hopt hlow
    unfold SandwichStrategy.analyze_token_to_eth_swap
    split
    · rfl
    · rw [hopt]
      dsimp only
      rw [if_pos hlow]
  · intro base_fee v r_in r_out o h
    unfold EnhancedSandwichStrategy.calculate_advanced_sandwich at h
    cases hn : EnhancedSandwichStrategy.newton_search v r_in r_out 10 (r_in / 20) 0 0 with
    | none => rw [hn] at h; exact absurd h (by simp)
    | some r =>
      rw [hn] at h
      simp only [Option.bind_eq_bind, Option.some_bind] at h
      split at h
      · exact absurd h (by simp)
      case isFalse hge =>
        cases hc : cmul r.2 98 with
        | none => rw [hc] at h; exact absurd h (by simp)
        | some b98 =>
          rw [hc] at h
          simp only [Option.bind_eq_bind, Option.some_bind] at h
          cases hg : cmul 400000 base_fee with
          | none => rw [hg] at h; exact absurd h (by simp)
          | some gas =>
            rw [hg] at h
            simp only [Option.bind_eq_bind, Option.some_bind] at h
            split at h
            · dsimp only [Option.bind] at h
              injection h with h'
              injection h' with h''
              subst h''
              exact le_of_not_lt hge
            · exact absurd h (by simp)

set_option maxRecDepth 100000 in
set_option maxHeartbeats 2000000 in
/-- C6 witness: the bisection run with victim `3 · 10^17` on the pool
`(10^19, 2 · 10^19)` completes with profit below 0.1 ETH and the analysis
rejects it; the concrete Newton run's profit is at least 0.05 ETH. -/
theorem min_profit_rejection_witness :
    SandwichStrategy.analyze_token_to_eth_swap 100 (10 ^ 19) (2 * 10 ^ 19) 0
      ⟨0, none, some 1, none⟩ [7, 8] (3 * 10 ^ 17) 0 = some none ∧
    EnhancedSandwichStrategy.min_profit_wei ≤ newton_run.profit :=
  ⟨min_profit_rejection.2.2.1 100 (10 ^ 19) (2 * 10 ^ 19) 0 ⟨0, none, some 1, none⟩
      [7, 8] (3 * 10 ^ 17) 0 bisection_run_small (by rfl) (by decide),
   min_profit_rejection.2.2.2 30000000000 (2 * 10 ^ 18) (10 ^ 19) (2 * 10 ^ 19)
      newton_run (by rfl)⟩

set_option maxHeartbeats 1000000 in
/-- C6 counterexample: the claim's stated default of 0.05 ETH does not match
`SandwichStrategy::new`, which sets `min_profit_wei` to `10^17` wei
(0.1 ETH). -/
theorem min_profit_default_cex :
    SandwichStrategy.min_profit_wei = 10 ^ 17 ∧
    SandwichStrategy.min_profit_wei ≠ 5 * 10 ^ 16 := by
  refine ⟨rfl, ?_⟩
  decide

/-! ## C7: the backrun-amount ratio -/

/-- C7 (amended): every returned `OptimalSandwich` carries
`backrun_amount = frontrun_amount * 95 / 100` from the bisection optimizer
(sandwich.rs applies a 5% slippage haircut) and
`backrun_amount = frontrun_amount * 98 / 100` from the Newton optimizer
(enhanced_sandwich.rs applies the 2% cushion); the claimed uniform 98/100
ratio holds only for the latter.  The floating `price_impact` field is
reporting-only and outside the integer model. -/
theorem backrun_amount_ratios :
    (∀ fuel v r_in r_out o,
      SandwichStrategy.calculate_optimal_sandwich fuel v r_in r_out = some o →
      o.backrun_amount = o.frontrun_amount * 95 / 100) ∧
    (∀ base_fee v r_in r_out o,
      EnhancedSandwichStrategy.calculate_advanced_sandwich base_fee v r_in r_out =
        some (some o) →
      o.backrun_amount = o.frontrun_amount * 98 / 100) := by
  constructor
  · intro fuel v r_in r_out o h
    unfold SandwichStrategy.calculate_optimal_sandwich at h
    cases hs : SandwichStrategy.sandwich_search v r_in r_out fuel 0 (r_in / 10) 0 0 with
    | none => rw [hs] at h; exact absurd h (by simp)
    | some pa =>
      obtain ⟨p, a⟩ := pa
      rw [hs] at h
      dsimp only at h
      cases hc : cmul a 95 with
      | none => rw [hc] at h; exact absurd h (by simp)
      | some b95 =>
        have hb95 : b95 = a * 95 := by
          unfold cmul at hc
          split at hc
          · exact (Option.some.injEq _ _ ▸ hc).symm
          · exact absurd hc (by simp)
        rw [hc] at h
        dsimp only at h
        split at h
        · injection h with h'
          subst h'
          rw [hb95]
        · exact absurd h (by simp)
  · intro base_fee v r_in r_out o h
    unfold EnhancedSandwichStrategy.calculate_advanced_sandwich at h
    cases hn : EnhancedSandwichStrategy.newton_search v r_in r_out 10 (r_in / 20) 0 0 with
    | none => rw [hn] at h; exact absurd h (by simp)
    | some r =>
      rw [hn] at h
      simp only [Option.bind_eq_bind, Option.some_bind] at h
      split at h
      · exact absurd h (by simp)
      · cases hc : cmul r.2 98 with
        | none => rw [hc] at h; exact absurd h (by simp)
        | some b98 =>
          have hb98 : b98 = r.2 * 98 := by
            unfold cmul at hc
            split at hc
            · exact (Option.some.injEq _ _ ▸ hc).symm
            · exact absurd hc (by simp)
          rw [hc] at h
          simp only [Option.bind_eq_bind, Option.some_bind] at h
          cases hg : cmul 400000 base_fee with
          | none => rw [hg] at h; exact absurd h (by simp)
          | some gas =>
            rw [hg] at h
            simp only [Option.bind_eq_bind, Option.some_bind] at h
            split at h
            · dsimp only [Option.bind] at h
              injection h with h'
              injection h' with h''
              subst h''
              rw [hb98]
            · exact absurd h (by simp)

set_option maxRecDepth 100000 in
/-- C7 witness: the concrete completed runs exhibit both ratios. -/
theorem backrun_amount_ratios_witness :
    bisection_run.backrun_amount = bisection_run.frontrun_amount * 95 / 100 ∧
    newton_run.backrun_amount = newton_run.frontrun_amount * 98 / 100 :=
  ⟨backrun_amount_ratios.1 100 (2 * 10 ^ 18) (10 ^ 19) (2 * 10 ^ 19)
      bisection_run (by rfl),
   backrun_amount_ratios.2 30000000000 (2 * 10 ^ 18) (10 ^ 19) (2 * 10 ^ 19)
      newton_run (by rfl)⟩

set_option maxRecDepth 100000 in
/-- C7 counterexample: the bisection run's `OptimalSandwich` (frontrun amount
`10^18`) has `backrun_amount = 95 / 100` of the frontrun amount, not the
claimed `98 / 100`. -/
theorem backrun_amount_ratios_cex :
    bisection_run.backrun_amount ≠ bisection_run.frontrun_amount * 98 / 100 := by
  decide

/-! ## C8: the ranking comparator -/

/-- C8 (amended): the pre-execution ranking sorts opportunities in descending
order of `estimated_profit ⊖ gas_cost` (saturating subtraction) and permutes
the input, but applies no tie-breakers at all: the comparator reads only the
net profit, and the stable sort leaves equal-net opportunities in their
original relative order (the claimed priority / expiry-block keys do not
exist in the code). -/
theorem ranking_by_net_profit :
    (∀ l : List MEVOpportunity,
      (rank_opportunities l).Sorted opportunity_le ∧ (rank_opportunities l).Perm l) ∧
    (∀ a b : MEVOpportunity, net_profit a = net_profit b →
      rank_opportunities [a, b] = [a, b]) := by
  constructor
  · intro l
    exact ⟨List.sorted_insertionSort opportunity_le l,
      List.perm_insertionSort opportunity_le l⟩
  · intro a b h
    unfold rank_opportunities
    simp only [List.insertionSort, List.orderedInsert]
    rw [if_pos]
    exact le_of_eq h.symm

/-- C8 witness: a concrete two-element tie, ranked by the model. -/
theorem ranking_by_net_profit_witness :
    rank_opportunities
        [⟨100, 0, 5, 0⟩, ⟨100, 0, 8, 0⟩] = [⟨100, 0, 5, 0⟩, ⟨100, 0, 8, 0⟩] :=
  ranking_by_net_profit.2 ⟨100, 0, 5, 0⟩ ⟨100, 0, 8, 0⟩ (by decide)

/-- C8 counterexample: two opportunities with equal net profit, the first of
lower priority.  The claimed comparator would place the higher-priority one
first; the code's comparator reads only the net profit and its stable sort
keeps the lower-priority one first. -/
theorem ranking_by_net_profit_cex :
    net_profit ⟨100, 0, 5, 0⟩ = net_profit ⟨100, 0, 8, 0⟩ ∧
    (5 : Nat) < 8 ∧
    rank_opportunities [⟨100, 0, 5, 0⟩, ⟨100, 0, 8, 0⟩] ≠
      [⟨100, 0, 8, 0⟩, ⟨100, 0, 5, 0⟩] := by
  refine ⟨by decide, by decide, ?_⟩
  decide

/-! ## C9: the dedup set has no retention bound -/

/-- Processing pairwise-distinct, previously unseen hashes grows the dedup
set by one entry each: nothing is ever evicted. -/
theorem dedup_foldl_length_of_nodup :
    ∀ (l acc : List Nat), l.Nodup → (∀ x ∈ l, x ∉ acc) →
      (l.foldl dedup_insert acc).length = acc.length + l.length := by
  intro l
  induction l with
  | nil => intro acc _ _; simp
  | cons x t ih =>
    intro acc hnd hfresh
    have hx : x ∉ acc := hfresh x (by simp)
    have step : dedup_insert acc x = acc ++ [x] := by
      unfold dedup_insert
      rw [if_neg hx]
    rw [List.foldl_cons, step, ih (acc ++ [x]) (List.nodup_cons.mp hnd).2]
    · simp
      omega
    · intro y hy
      simp only [List.mem_append, List.mem_singleton]
      rintro (hacc | rfl)
      · exact hfresh y (by simp [hy]) hacc
      · exact (List.nodup_cons.mp hnd).1 hy

/-- C9 (code bug): the claim says the dedup set never holds more than 10000
entries, the oldest being evicted FIFO.  The monitor's `HashMap` has no
eviction path at all: after a stream of 10001 distinct tx hashes it holds
10001 entries. -/
theorem dedup_set_exceeds_bound :
    10000 < (dedup_process (List.range 10001)).length := by
  have h := dedup_foldl_length_of_nodup (List.range 10001) [] (List.nodup_range _)
    (by simp)
  unfold dedup_process
  rw [h]
  simp

/-! ## C10: only Token→ETH swaps can produce a sandwich -/

/-- C10: for every decoded ETH→Token swap (both flavours) and Token→Token
swap (both flavours), `analyze` returns normally with an empty opportunity
list: the corresponding handlers are hard-wired to `None`, so only the two
Token→ETH variants can ever produce a sandwich opportunity. -/
theorem analyze_non_token_to_eth_is_empty :
    ∀ fuel reserve0 reserve1 current_block value gas_price toAddr path
      amount_in amount_out_min,
      SandwichStrategy.analyze fuel reserve0 reserve1 current_block
        ⟨value, gas_price, toAddr, some (.swapExactETHForTokens path amount_out_min)⟩ =
          some [] ∧
      SandwichStrategy.analyze fuel reserve0 reserve1 current_block
        ⟨value, gas_price, toAddr,
          some (.swapExactETHForTokensSupportingFeeOnTransferTokens path amount_out_min)⟩ =
          some [] ∧
      SandwichStrategy.analyze fuel reserve0 reserve1 current_block
        ⟨value, gas_price, toAddr,
          some (.swapExactTokensForTokens path amount_in amount_out_min)⟩ = some [] ∧
      SandwichStrategy.analyze fuel reserve0 reserve1 current_block
        ⟨value, gas_price, toAddr,
          some (.swapExactTokensForTokensSupportingFeeOnTransferTokens path amount_in
            amount_out_min)⟩ = some [] :=
  fun _ _ _ _ _ _ _ _ _ _ => ⟨rfl, rfl, rfl, rfl⟩
